import Mathlib

/-!
Verification development for the securedoc document-sharing backend.

The embedding translates the access-reconciliation layer of the repository:
the Document record model (src/models/Document.js), the sharing routes
(grant, revoke, batch-grant, access-check), the document routes (upload,
download, delete, fetch) and the simulated ledger adapter
(DevBlockchainService) and blob-encryption scheme of the adapters.

Conventions of the embedding:
* database/object ids, hashes, addresses and timestamps are natural numbers;
* a fallible external call (ledger RPC, blob store) is passed to a handler
  as an explicit outcome of type Except Unit A, standing for the promise
  either throwing or resolving with A;
* randomness (random transaction hashes, fresh keys and nonces) is passed
  in as explicit parameters;
* each route handler is a pure function from its request data and the
  outcomes of its external calls to a response together with the resulting
  Document record state; mutation of the mongoose document followed by
  save() becomes returning the updated record.
-/

/-- Permission levels of a shared-with entry (enum read/write in the schema). -/
inductive Perm
  | read
  | write
deriving DecidableEq

/-- One entry of a Document record sharedWith array. -/
structure Share where
  user : Nat
  permissions : Perm
  sharedAt : Nat
deriving DecidableEq

/-- The Document record (src/models/Document.js), restricted to the fields the
access-reconciliation layer reads or writes. -/
structure Document where
  owner : Nat
  sharedWith : List Share
  isActive : Bool
  blockchainDocumentId : Nat
  ipfsHash : Nat
  downloadCount : Nat
  lastAccessedAt : Nat
  isEncrypted : Bool
  encryptionKey : Option (List Nat)
  title : List Nat
deriving DecidableEq

/-- documentSchema.methods.hasAccess: the owner always has access, otherwise
the user must appear in the sharedWith array. -/
def Document.hasAccess (d : Document) (userId : Nat) : Bool :=
  d.owner == userId || d.sharedWith.any (fun s => s.user == userId)

/-- Result of getUserPermission: the string owner, or the share entry level. -/
inductive UserPerm
  | owner
  | level (p : Perm)
deriving DecidableEq

/-- documentSchema.methods.getUserPermission. -/
def Document.getUserPermission (d : Document) (userId : Nat) : Option UserPerm :=
  if d.owner == userId then some .owner
  else
    match d.sharedWith.find? (fun s => s.user == userId) with
    | some s => some (.level s.permissions)
    | none => none

/-- Update of the first sharedWith entry of a given user, as performed by the
grant route and by shareWith when the user is already present: the entry
found first gets the new permission level and shared-at time. -/
def updateShare : List Share → Nat → Perm → Nat → List Share
  | [], _, _, _ => []
  | s :: rest, u, p, now =>
    if s.user == u then { s with permissions := p, sharedAt := now } :: rest
    else s :: updateShare rest u p now

/-- documentSchema.methods.shareWith: refuses the owner; updates the existing
entry when present with a different level; appends a fresh entry otherwise.
Returns the success flag together with the updated record. -/
def Document.shareWith (d : Document) (userId : Nat) (p : Perm) (now : Nat) :
    Bool × Document :=
  if d.owner == userId then (false, d)
  else
    match d.sharedWith.find? (fun s => s.user == userId) with
    | some s =>
      if s.permissions ≠ p then
        (true, { d with sharedWith := updateShare d.sharedWith userId p now })
      else (false, d)
    | none =>
      (true, { d with sharedWith := d.sharedWith ++ [⟨userId, p, now⟩] })

/-- documentSchema.methods.unshareWith: filters the user out of sharedWith and
reports whether the array shrank. -/
def Document.unshareWith (d : Document) (userId : Nat) : Bool × Document :=
  let l := d.sharedWith.filter (fun s => !(s.user == userId))
  (decide (l.length < d.sharedWith.length), { d with sharedWith := l })

/-- Response of the access-check route GET /access/:documentId. The route
always reports the final answer, the database component and the ledger
component of the dual verification. -/
structure AccessCheckResp where
  found : Bool
  hasAccess : Bool
  databaseAccess : Bool
  blockchainAccess : Bool
deriving DecidableEq

/-- Handler of GET /access/:documentId. A missing or inactive document is
not-found with hasAccess false. Otherwise databaseAccess is the record
method hasAccess, blockchainAccess is the ledger answer with a thrown
ledger query caught and left at the initial value false, and the final
answer is the conjunction of the two. -/
def accessCheckHandler (doc : Option Document) (userId : Nat)
    (ledger : Except Unit Bool) : AccessCheckResp :=
  match doc with
  | none => ⟨false, false, false, false⟩
  | some d =>
    if !d.isActive then ⟨false, false, false, false⟩
    else
      let databaseAccess := d.hasAccess userId
      let blockchainAccess :=
        match ledger with
        | .ok b => b
        | .error _ => false
      ⟨true, databaseAccess && blockchainAccess, databaseAccess, blockchainAccess⟩

/-- C1: for an access check on an existing active document, the returned
hasAccess is the conjunction of the local check (owner or member of the
shared-with set) with the ledger answer, and a thrown ledger query is
treated as a ledger answer of false, so the overall answer is then false. -/
theorem accessCheck_dual_and_failsClosed (d : Document) (userId : Nat)
    (ledger : Except Unit Bool) (hActive : d.isActive = true) :
    (accessCheckHandler (some d) userId ledger).hasAccess
        = ((d.owner == userId || d.sharedWith.any (fun s => s.user == userId))
            && (match ledger with | .ok b => b | .error _ => false))
      ∧ (∀ e : Unit, ledger = .error e →
          (accessCheckHandler (some d) userId ledger).hasAccess = false) := by
  constructor
  · simp [accessCheckHandler, hActive, Document.hasAccess]
  · intro e he
    subst he
    simp [accessCheckHandler, hActive, Document.hasAccess]

/-- Witness for C1 at a concrete document, user and ledger outcome. -/
theorem accessCheck_dual_and_failsClosed_witness :
    (⟨7, [⟨3, .read, 5⟩], true, 0, 0, 0, 0, false, none, []⟩ : Document).isActive = true
      ∧ ((accessCheckHandler
            (some ⟨7, [⟨3, .read, 5⟩], true, 0, 0, 0, 0, false, none, []⟩) 3
            (.ok true)).hasAccess
          = (((7 : Nat) == 3 || [(⟨3, .read, 5⟩ : Share)].any (fun s => s.user == 3))
              && (match (.ok true : Except Unit Bool) with
                  | .ok b => b | .error _ => false))
        ∧ (∀ e : Unit, (.ok true : Except Unit Bool) = .error e →
            (accessCheckHandler
              (some ⟨7, [⟨3, .read, 5⟩], true, 0, 0, 0, 0, false, none, []⟩) 3
              (.ok true)).hasAccess = false)) :=
  ⟨by decide,
    accessCheck_dual_and_failsClosed
      ⟨7, [⟨3, .read, 5⟩], true, 0, 0, 0, 0, false, none, []⟩ 3 (.ok true) (by decide)⟩

/-- Ledger transaction result as returned by grantAccess and revokeAccess. -/
structure Tx where
  transactionHash : Nat
  blockNumber : Nat
  targetWalletAddress : Nat
deriving DecidableEq

/-- Responses of the grant route POST /grant. -/
inductive GrantResp
  | missingFields
  | docNotFound
  | notOwner
  | userNotFound
  | selfShare
  | alreadyShared
  | permUpdated
  | shared (tx : Tx)
  | shareFailed
  | serverError
deriving DecidableEq

/-- Outcome of the grant route: response, resulting Document record, and
whether the ledger grant call was issued. -/
structure GrantOut where
  resp : GrantResp
  doc : Option Document
  ledgerCalled : Bool
deriving DecidableEq

/-- Handler of POST /grant. Ownership is validated against the record store;
an already-shared target with a different level is updated in the record
store only (no ledger call); otherwise the ledger grant is issued, a thrown
ledger call is replaced in development mode by a synthesized transaction
(the random values are the devTx parameter) and rethrown in production
mode, and on a real or synthesized result the record store write proceeds. -/
def grantHandler (isDevelopmentMode : Bool) (ownerId : Nat) (doc : Option Document)
    (target : Option Nat) (perm : Perm) (ledger : Except Unit Tx) (devTx : Tx)
    (now : Nat) : GrantOut :=
  match doc with
  | none => ⟨.docNotFound, none, false⟩
  | some d =>
    if !d.isActive then ⟨.docNotFound, some d, false⟩
    else if !(d.owner == ownerId) then ⟨.notOwner, some d, false⟩
    else
      match target with
      | none => ⟨.userNotFound, some d, false⟩
      | some t =>
        if t == ownerId then ⟨.selfShare, some d, false⟩
        else
          match d.sharedWith.find? (fun s => s.user == t) with
          | some e =>
            if e.permissions ≠ perm then
              ⟨.permUpdated,
                some { d with sharedWith := updateShare d.sharedWith t perm now },
                false⟩
            else ⟨.alreadyShared, some d, false⟩
          | none =>
            let result : Option Tx :=
              match ledger with
              | .ok tx => some tx
              | .error _ => if isDevelopmentMode then some devTx else none
            match result with
            | none => ⟨.serverError, some d, true⟩
            | some tx =>
              let r := d.shareWith t perm now
              if r.1 then ⟨.shared tx, some r.2, true⟩
              else ⟨.shareFailed, some d, true⟩

/-- C2: a grant on a document not yet shared with the target, when the ledger
grant throws: in development mode the synthesized transaction is used and
the shared-with write still proceeds (a fresh entry is appended); in
production mode the operation fails with a server error and the Document
record is unchanged. -/
theorem grant_ledgerFailure_byMode (ownerId t now : Nat) (d : Document)
    (perm : Perm) (devTx : Tx)
    (hActive : d.isActive = true) (hOwn : d.owner = ownerId)
    (hNe : ¬(t = ownerId))
    (hNotShared : d.sharedWith.find? (fun s => s.user == t) = none) :
    grantHandler true ownerId (some d) (some t) perm (.error ()) devTx now
        = ⟨.shared devTx,
            some { d with sharedWith := d.sharedWith ++ [⟨t, perm, now⟩] }, true⟩
      ∧ grantHandler false ownerId (some d) (some t) perm (.error ()) devTx now
        = ⟨.serverError, some d, true⟩ := by
  have ht : (t == ownerId) = false := by simp [hNe]
  have hne2 : ¬(ownerId = t) := fun h => hNe h.symm
  constructor
  · simp [grantHandler, hActive, hOwn, ht, hNotShared, Document.shareWith, hne2]
  · simp [grantHandler, hActive, hOwn, ht, hNotShared]

/-- Witness for C2: owner 1 grants read on an unshared active document to
user 2 while the ledger call throws, in each mode. -/
theorem grant_ledgerFailure_byMode_witness :
    (⟨1, [], true, 0, 0, 0, 0, false, none, []⟩ : Document).isActive = true
      ∧ (1 : Nat) = 1
      ∧ ¬((2 : Nat) = 1)
      ∧ ([] : List Share).find? (fun s => s.user == 2) = none
      ∧ (grantHandler true 1 (some ⟨1, [], true, 0, 0, 0, 0, false, none, []⟩)
            (some 2) .read (.error ()) ⟨9, 9, 9⟩ 4
          = ⟨.shared ⟨9, 9, 9⟩,
              some ⟨1, [⟨2, .read, 4⟩], true, 0, 0, 0, 0, false, none, []⟩, true⟩
        ∧ grantHandler false 1 (some ⟨1, [], true, 0, 0, 0, 0, false, none, []⟩)
            (some 2) .read (.error ()) ⟨9, 9, 9⟩ 4
          = ⟨.serverError, some ⟨1, [], true, 0, 0, 0, 0, false, none, []⟩, true⟩) :=
  ⟨by decide, rfl, by decide, by decide,
    grant_ledgerFailure_byMode 1 2 4 ⟨1, [], true, 0, 0, 0, 0, false, none, []⟩
      .read ⟨9, 9, 9⟩ (by decide) rfl (by decide) (by decide)⟩

/-- updateShare keeps the length of the shared-with array. -/
theorem updateShare_length (l : List Share) (u : Nat) (p : Perm) (n : Nat) :
    (updateShare l u p n).length = l.length := by
  induction l with
  | nil => rfl
  | cons s rest ih =>
    simp only [updateShare]
    split
    · simp
    · simp [ih]

/-- updateShare rewrites the first entry of the user, so a find? that hit an
entry before the update hits the updated entry afterwards. -/
theorem updateShare_find? (l : List Share) (u : Nat) (p : Perm) (n : Nat)
    (e : Share) (h : l.find? (fun s => s.user == u) = some e) :
    (updateShare l u p n).find? (fun s => s.user == u)
      = some { e with permissions := p, sharedAt := n } := by
  induction l with
  | nil => simp at h
  | cons s rest ih =>
    cases hs : (s.user == u) with
    | true =>
      simp only [List.find?_cons, hs, Option.some.injEq] at h
      subst h
      simp [updateShare, hs, List.find?_cons]
    | false =>
      simp only [List.find?_cons, hs] at h
      simp only [updateShare, hs, Bool.false_eq_true, if_false]
      simp only [List.find?_cons, hs]
      exact ih h

/-- Entries of other users are untouched by updateShare. -/
theorem updateShare_mem_of_ne (l : List Share) (u : Nat) (p : Perm) (n : Nat) :
    ∀ s ∈ updateShare l u p n, ¬(s.user = u) → s ∈ l := by
  induction l with
  | nil => intro s hs; simp [updateShare] at hs
  | cons a rest ih =>
    intro s hs hne
    by_cases ha : (a.user == u) = true
    · simp only [updateShare, if_pos ha] at hs
      rcases List.mem_cons.1 hs with h | h
      · exfalso
        apply hne
        rw [h]
        simpa using ha
      · exact List.mem_cons_of_mem _ h
    · simp only [updateShare, if_neg ha] at hs
      rcases List.mem_cons.1 hs with h | h
      · exact h ▸ List.mem_cons_self a rest
      · exact List.mem_cons_of_mem _ (ih s h hne)

/-- C7: a repeated grant to an already-shared user. With the identical
permission level the call is rejected as already shared and the record is
unchanged (no duplicate entry). With a different level only that user's
entry is rewritten (new level and shared-at time, same array length, other
entries untouched) and no ledger call is issued. -/
theorem grant_regrant_idempotence (isDev : Bool) (ownerId t now : Nat)
    (d : Document) (perm : Perm) (e : Share) (ledger : Except Unit Tx)
    (devTx : Tx)
    (hActive : d.isActive = true) (hOwn : d.owner = ownerId)
    (hNe : ¬(t = ownerId))
    (hFound : d.sharedWith.find? (fun s => s.user == t) = some e) :
    (e.permissions = perm →
      grantHandler isDev ownerId (some d) (some t) perm ledger devTx now
        = ⟨.alreadyShared, some d, false⟩)
    ∧ (¬(e.permissions = perm) →
        grantHandler isDev ownerId (some d) (some t) perm ledger devTx now
          = ⟨.permUpdated,
              some { d with sharedWith := updateShare d.sharedWith t perm now },
              false⟩
        ∧ (updateShare d.sharedWith t perm now).length = d.sharedWith.length
        ∧ (updateShare d.sharedWith t perm now).find? (fun s => s.user == t)
            = some { e with permissions := perm, sharedAt := now }
        ∧ ∀ s ∈ updateShare d.sharedWith t perm now,
            ¬(s.user = t) → s ∈ d.sharedWith) := by
  have ht : (t == ownerId) = false := by simp [hNe]
  constructor
  · intro hp
    simp [grantHandler, hActive, hOwn, ht, hFound, hp]
  · intro hp
    refine ⟨?_, updateShare_length _ _ _ _, updateShare_find? _ _ _ _ _ hFound,
      updateShare_mem_of_ne _ _ _ _⟩
    simp [grantHandler, hActive, hOwn, ht, hFound, hp]

/-- Witness for C7: both the identical-permission rejection and the
different-permission update, on a document shared with user 2 at read. -/
theorem grant_regrant_idempotence_witness :
    (⟨1, [⟨2, .read, 0⟩], true, 0, 0, 0, 0, false, none, []⟩ : Document).isActive = true
      ∧ (1 : Nat) = 1
      ∧ ¬((2 : Nat) = 1)
      ∧ [(⟨2, .read, 0⟩ : Share)].find? (fun s => s.user == 2)
          = some ⟨2, .read, 0⟩
      ∧ (((⟨2, .read, 0⟩ : Share).permissions = .read →
            grantHandler false 1
                (some ⟨1, [⟨2, .read, 0⟩], true, 0, 0, 0, 0, false, none, []⟩)
                (some 2) .read (.ok ⟨8, 8, 8⟩) ⟨9, 9, 9⟩ 6
              = ⟨.alreadyShared,
                  some ⟨1, [⟨2, .read, 0⟩], true, 0, 0, 0, 0, false, none, []⟩, false⟩)
        ∧ (¬((⟨2, .read, 0⟩ : Share).permissions = .read) →
            grantHandler false 1
                (some ⟨1, [⟨2, .read, 0⟩], true, 0, 0, 0, 0, false, none, []⟩)
                (some 2) .read (.ok ⟨8, 8, 8⟩) ⟨9, 9, 9⟩ 6
              = ⟨.permUpdated,
                  some { (⟨1, [⟨2, .read, 0⟩], true, 0, 0, 0, 0, false, none, []⟩ : Document)
                          with sharedWith := updateShare [⟨2, .read, 0⟩] 2 .read 6 },
                  false⟩
            ∧ (updateShare [(⟨2, .read, 0⟩ : Share)] 2 .read 6).length
                = [(⟨2, .read, 0⟩ : Share)].length
            ∧ (updateShare [(⟨2, .read, 0⟩ : Share)] 2 .read 6).find?
                  (fun s => s.user == 2)
                = some { (⟨2, .read, 0⟩ : Share) with
                          permissions := .read, sharedAt := 6 }
            ∧ ∀ s ∈ updateShare [(⟨2, .read, 0⟩ : Share)] 2 .read 6,
                ¬(s.user = 2) → s ∈ [(⟨2, .read, 0⟩ : Share)])) :=
  ⟨by decide, rfl, by decide, by decide,
    grant_regrant_idempotence false 1 2 6
      ⟨1, [⟨2, .read, 0⟩], true, 0, 0, 0, 0, false, none, []⟩ .read ⟨2, .read, 0⟩
      (.ok ⟨8, 8, 8⟩) ⟨9, 9, 9⟩ (by decide) rfl (by decide) (by decide)⟩

/-- Responses of the revoke route POST /revoke. -/
inductive RevokeResp
  | missingFields
  | docNotFound
  | notOwner
  | userNotFound
  | notShared
  | revokeFailed
  | revoked (tx : Tx)
  | serverError
deriving DecidableEq

/-- Outcome of the revoke route: response, resulting Document record, and
whether the ledger revoke call was issued. -/
structure RevokeOut where
  resp : RevokeResp
  doc : Option Document
  ledgerCalled : Bool
deriving DecidableEq

/-- Handler of POST /revoke. The route validates ownership, requires the
target to be a known user and to be currently in the shared-with set, then
awaits the ledger revoke with no catch and no mode branch (the route never
reads the development-mode flag): a thrown ledger revoke reaches the outer
catch as a server error before any record mutation. Only on ledger success
is the shared-with entry removed and saved. -/
def revokeHandler (ownerId : Nat) (doc : Option Document) (targetFound : Bool)
    (targetId : Nat) (ledger : Except Unit Tx) : RevokeOut :=
  match doc with
  | none => ⟨.docNotFound, none, false⟩
  | some d =>
    if !d.isActive then ⟨.docNotFound, some d, false⟩
    else if !(d.owner == ownerId) then ⟨.notOwner, some d, false⟩
    else if !targetFound then ⟨.userNotFound, some d, false⟩
    else if !(d.sharedWith.any (fun s => s.user == targetId)) then
      ⟨.notShared, some d, false⟩
    else
      match ledger with
      | .error _ => ⟨.serverError, some d, true⟩
      | .ok tx =>
        let r := d.unshareWith targetId
        if r.1 then ⟨.revoked tx, some r.2, true⟩
        else ⟨.revokeFailed, some d, true⟩

/-- A filter on a predicate failing at a member strictly shrinks the list. -/
theorem length_filter_lt_of_mem {α : Type} (l : List α) (p : α → Bool) (a : α)
    (ha : a ∈ l) (hpa : p a = false) : (l.filter p).length < l.length := by
  induction l with
  | nil => simp at ha
  | cons b rest ih =>
    rcases List.mem_cons.1 ha with h | h
    · subst h
      simp only [List.filter_cons, hpa, Bool.false_eq_true, if_false]
      exact Nat.lt_succ_of_le (List.length_filter_le _ _)
    · cases hb : p b with
      | true =>
        simp only [List.filter_cons, hb, if_true, List.length_cons]
        exact Nat.succ_lt_succ (ih h)
      | false =>
        simp only [List.filter_cons, hb, Bool.false_eq_true, if_false,
          List.length_cons]
        exact Nat.lt_succ_of_lt (ih h)

/-- C4: revoke on an active owned document. When the target is not in the
shared-with set the operation rejects without touching the ledger and with
the record unchanged. When the target is in the set the ledger revoke is
always issued, whatever its outcome: a thrown ledger revoke ends the
operation as a server error with the Document record unchanged, and only a
ledger success removes the entry (the resulting shared-with array is the
original with the target filtered out). The handler takes no mode flag, as
the route never branches on the mode. -/
theorem revoke_ledgerFirst_strict (ownerId targetId : Nat) (d : Document)
    (tx : Tx)
    (hActive : d.isActive = true) (hOwn : d.owner = ownerId) :
    (d.sharedWith.any (fun s => s.user == targetId) = false →
      ∀ ledger : Except Unit Tx,
        revokeHandler ownerId (some d) true targetId ledger
          = ⟨.notShared, some d, false⟩)
    ∧ (d.sharedWith.any (fun s => s.user == targetId) = true →
        revokeHandler ownerId (some d) true targetId (.error ())
          = ⟨.serverError, some d, true⟩
        ∧ revokeHandler ownerId (some d) true targetId (.ok tx)
          = ⟨.revoked tx,
              some { d with sharedWith :=
                      d.sharedWith.filter (fun s => !(s.user == targetId)) },
              true⟩) := by
  constructor
  · intro hNot ledger
    simp [revokeHandler, hActive, hOwn, hNot]
  · intro hMem
    constructor
    · simp [revokeHandler, hActive, hOwn, hMem]
    · have hlt : (d.sharedWith.filter (fun s => !(s.user == targetId))).length
          < d.sharedWith.length := by
        rcases List.any_eq_true.1 hMem with ⟨a, haMem, haEq⟩
        exact length_filter_lt_of_mem _ _ a haMem (by simp [haEq])
      simp [revokeHandler, hActive, hOwn, hMem, Document.unshareWith, hlt]

/-- Witness for C4 on a document shared with user 2 and an unshared user 5. -/
theorem revoke_ledgerFirst_strict_witness :
    (⟨1, [⟨2, .read, 0⟩], true, 0, 0, 0, 0, false, none, []⟩ : Document).isActive = true
      ∧ (1 : Nat) = 1
      ∧ (([(⟨2, .read, 0⟩ : Share)].any (fun s => s.user == 2) = false →
            ∀ ledger : Except Unit Tx,
              revokeHandler 1
                  (some ⟨1, [⟨2, .read, 0⟩], true, 0, 0, 0, 0, false, none, []⟩)
                  true 2 ledger
                = ⟨.notShared,
                    some ⟨1, [⟨2, .read, 0⟩], true, 0, 0, 0, 0, false, none, []⟩,
                    false⟩)
        ∧ ([(⟨2, .read, 0⟩ : Share)].any (fun s => s.user == 2) = true →
            revokeHandler 1
                (some ⟨1, [⟨2, .read, 0⟩], true, 0, 0, 0, 0, false, none, []⟩)
                true 2 (.error ())
              = ⟨.serverError,
                  some ⟨1, [⟨2, .read, 0⟩], true, 0, 0, 0, 0, false, none, []⟩, true⟩
            ∧ revokeHandler 1
                (some ⟨1, [⟨2, .read, 0⟩], true, 0, 0, 0, 0, false, none, []⟩)
                true 2 (.ok ⟨8, 8, 8⟩)
              = ⟨.revoked ⟨8, 8, 8⟩,
                  some { (⟨1, [⟨2, .read, 0⟩], true, 0, 0, 0, 0, false, none, []⟩ :
                            Document) with
                          sharedWith := [(⟨2, .read, 0⟩ : Share)].filter
                            (fun s => !(s.user == 2)) },
                  true⟩)) :=
  ⟨by decide, rfl,
    revoke_ledgerFirst_strict 1 2
      ⟨1, [⟨2, .read, 0⟩], true, 0, 0, 0, 0, false, none, []⟩ ⟨8, 8, 8⟩
      (by decide) rfl⟩

/-- Responses of the download route GET /:id/download. blockchainDenied is
the 403 Blockchain access denied response the route returns itself;
serverError is the outer catch for thrown errors whose message is neither
Document not found, Access denied, nor contains Blockchain access denied —
in particular the Failed to check access message thrown by either ledger
adapter lands there. -/
inductive DownloadResp
  | docNotFound
  | accessDenied
  | blockchainDenied
  | file (bytes : List Nat)
  | serverError
deriving DecidableEq

/-- Outcome of the download route: response plus resulting Document record. -/
structure DownloadOut where
  resp : DownloadResp
  doc : Option Document
deriving DecidableEq

/-- Handler of GET /:id/download. After the local access validation, the
ledger has-access call is awaited with no catch around it: a thrown call
propagates to the outer catch and is answered as a server error in either
mode. A ledger answer of false is rejected as blockchain-denied only in
production mode; in development mode it is logged and the download
proceeds. The download counter and last-accessed time are persisted only
after a successful blob fetch. -/
def downloadHandler (isDevelopmentMode : Bool) (userId : Nat)
    (doc : Option Document) (ledger : Except Unit Bool)
    (ipfs : Except Unit (List Nat)) (now : Nat) : DownloadOut :=
  match doc with
  | none => ⟨.docNotFound, none⟩
  | some d =>
    if !d.isActive then ⟨.docNotFound, some d⟩
    else if !(d.hasAccess userId) then ⟨.accessDenied, some d⟩
    else
      match ledger with
      | .error _ => ⟨.serverError, some d⟩
      | .ok bc =>
        if !bc && !isDevelopmentMode then ⟨.blockchainDenied, some d⟩
        else
          match ipfs with
          | .error _ => ⟨.serverError, some d⟩
          | .ok bytes =>
            ⟨.file bytes,
              some { d with downloadCount := d.downloadCount + 1,
                            lastAccessedAt := now }⟩

/-- Counterexample to C3 as stated: in development mode, with the local
check passing and the blob fetch able to succeed, a thrown ledger
has-access call does block the download — the route answers with the
outer-catch server error and no file is sent, contradicting the claim that
in development mode a ledger-check failure does not block the download. -/
theorem download_devLedgerThrow_blocks :
    downloadHandler true 2
        (some ⟨1, [⟨2, .read, 0⟩], true, 0, 0, 0, 0, false, none, []⟩)
        (.error ()) (.ok [104, 105]) 7
      = ⟨.serverError,
          some ⟨1, [⟨2, .read, 0⟩], true, 0, 0, 0, 0, false, none, []⟩⟩
    ∧ ∀ bytes : List Nat,
        (downloadHandler true 2
            (some ⟨1, [⟨2, .read, 0⟩], true, 0, 0, 0, 0, false, none, []⟩)
            (.error ()) (.ok [104, 105]) 7).resp
          ≠ .file bytes := by
  constructor
  · rfl
  · intro bytes h
    cases h

/-- C3 amended: during download, after the local access check passes, a
ledger has-access answer of false does not block the download in
development mode, while in production mode it blocks it with the
blockchain access-denied result; a ledger has-access call that throws
blocks the download with a generic server error, not an access-denied
result, in both modes alike. -/
theorem download_ledger_byMode (userId now : Nat) (d : Document)
    (bytes : List Nat)
    (hActive : d.isActive = true) (hLocal : d.hasAccess userId = true) :
    downloadHandler true userId (some d) (.ok false) (.ok bytes) now
        = ⟨.file bytes,
            some { d with downloadCount := d.downloadCount + 1,
                          lastAccessedAt := now }⟩
      ∧ downloadHandler false userId (some d) (.ok false) (.ok bytes) now
        = ⟨.blockchainDenied, some d⟩
      ∧ (∀ mode : Bool,
          downloadHandler mode userId (some d) (.error ()) (.ok bytes) now
            = ⟨.serverError, some d⟩) := by
  refine ⟨?_, ?_, ?_⟩
  · simp [downloadHandler, hActive, hLocal]
  · simp [downloadHandler, hActive, hLocal]
  · intro mode
    simp [downloadHandler, hActive, hLocal]

/-- Witness for the amended C3: user 2 holds a read share on an active
document, the blob fetch would return two bytes. -/
theorem download_ledger_byMode_witness :
    (⟨1, [⟨2, .read, 0⟩], true, 0, 0, 0, 0, false, none, []⟩ : Document).isActive
        = true
      ∧ (⟨1, [⟨2, .read, 0⟩], true, 0, 0, 0, 0, false, none, []⟩ :
            Document).hasAccess 2 = true
      ∧ (downloadHandler true 2
            (some ⟨1, [⟨2, .read, 0⟩], true, 0, 0, 0, 0, false, none, []⟩)
            (.ok false) (.ok [104, 105]) 7
          = ⟨.file [104, 105],
              some { (⟨1, [⟨2, .read, 0⟩], true, 0, 0, 0, 0, false, none, []⟩ :
                        Document) with
                      downloadCount :=
                        (⟨1, [⟨2, .read, 0⟩], true, 0, 0, 0, 0, false, none, []⟩ :
                          Document).downloadCount + 1,
                      lastAccessedAt := 7 }⟩
        ∧ downloadHandler false 2
            (some ⟨1, [⟨2, .read, 0⟩], true, 0, 0, 0, 0, false, none, []⟩)
            (.ok false) (.ok [104, 105]) 7
          = ⟨.blockchainDenied,
              some ⟨1, [⟨2, .read, 0⟩], true, 0, 0, 0, 0, false, none, []⟩⟩
        ∧ (∀ mode : Bool,
            downloadHandler mode 2
              (some ⟨1, [⟨2, .read, 0⟩], true, 0, 0, 0, 0, false, none, []⟩)
              (.error ()) (.ok [104, 105]) 7
              = ⟨.serverError,
                  some ⟨1, [⟨2, .read, 0⟩], true, 0, 0, 0, 0, false, none, []⟩⟩)) :=
  ⟨by decide, by decide,
    download_ledger_byMode 2 7
      ⟨1, [⟨2, .read, 0⟩], true, 0, 0, 0, 0, false, none, []⟩ [104, 105]
      (by decide) (by decide)⟩

/-- JS strings are embedded as lists of code points; this is the whitespace
test of the trim model. -/
def isSpaceCode (c : Nat) : Bool :=
  c == 32 || c == 9 || c == 10 || c == 13

/-- Model of String.prototype.trim: strip whitespace on both ends. -/
def trimCodes (l : List Nat) : List Nat :=
  ((l.dropWhile isSpaceCode).reverse.dropWhile isSpaceCode).reverse

/-- Model of String.prototype.toLowerCase on one code point (ASCII letters). -/
def toLowerCode (c : Nat) : Nat :=
  if 65 ≤ c && c ≤ 90 then c + 32 else c

/-- The email normalization the sharing routes apply before lookup:
toLowerCase followed by trim. -/
def normalizeEmail (l : List Nat) : List Nat :=
  trimCodes (l.map toLowerCode)

/-- Result of the blob-store upload: content address, stored size, and the
encryption key when encryption was requested. -/
structure BlobRes where
  ipfsHash : Nat
  size : Nat
  encryptionKey : Option (List Nat)
deriving DecidableEq

/-- Result of the ledger addDocument call. -/
structure LedgerAddRes where
  documentId : Nat
  transactionHash : Nat
  blockNumber : Nat
  walletAddress : Nat
deriving DecidableEq

/-- External calls the upload route can issue, recorded in issue order. The
route has no compensating blob delete in any path, so blobDelete can never
be emitted; it is present so that its absence is expressible. -/
inductive UploadEff
  | blobCall
  | ledgerCall
  | dbCreate
  | blobDelete
deriving DecidableEq

/-- Responses of the upload route POST /upload. -/
inductive UploadResp
  | noFile
  | noTitle
  | titleTooLong
  | created (doc : Document)
  | serverError
deriving DecidableEq

/-- Outcome of the upload route: response plus the trace of external calls. -/
structure UploadOut where
  resp : UploadResp
  effects : List UploadEff
deriving DecidableEq

/-- Handler of POST /upload. The order is blob store, then ledger, then the
Document record. A thrown blob upload reaches the outer catch before the
ledger call; a thrown ledger call reaches it before the record is created,
and no path deletes the already-stored blob. On success the record is
created active with a zero download counter, carrying the blob result key
when one was returned. -/
def uploadHandler (filePresent : Bool) (title : List Nat) (ownerId : Nat)
    (blob : Except Unit BlobRes) (ledger : Except Unit LedgerAddRes)
    (now : Nat) : UploadOut :=
  if !filePresent then ⟨.noFile, []⟩
  else if (trimCodes title).length == 0 then ⟨.noTitle, []⟩
  else if title.length > 100 then ⟨.titleTooLong, []⟩
  else
    match blob with
    | .error _ => ⟨.serverError, [.blobCall]⟩
    | .ok b =>
      match ledger with
      | .error _ => ⟨.serverError, [.blobCall, .ledgerCall]⟩
      | .ok l =>
        let doc : Document :=
          { owner := ownerId
            sharedWith := []
            isActive := true
            blockchainDocumentId := l.documentId
            ipfsHash := b.ipfsHash
            downloadCount := 0
            lastAccessedAt := now
            isEncrypted := b.encryptionKey.isSome
            encryptionKey := b.encryptionKey
            title := trimCodes title }
        ⟨.created doc, [.blobCall, .ledgerCall, .dbCreate]⟩

/-- C5: with a file present and a valid title, a thrown blob upload aborts
the operation with neither a ledger call nor a record creation; a thrown
ledger registration aborts it after the blob was stored, with no record
creation and no compensating blob delete; and on success the three writes
happen in the order blob store, ledger, record store. -/
theorem upload_ordering_noRollback (title : List Nat) (ownerId now : Nat)
    (b : BlobRes) (l : LedgerAddRes)
    (hTitle : ((trimCodes title).length == 0) = false)
    (hLen : ¬(title.length > 100)) :
    (uploadHandler true title ownerId (.error ()) (.ok l) now
        = ⟨.serverError, [.blobCall]⟩
      ∧ UploadEff.ledgerCall ∉
          (uploadHandler true title ownerId (.error ()) (.ok l) now).effects
      ∧ UploadEff.dbCreate ∉
          (uploadHandler true title ownerId (.error ()) (.ok l) now).effects)
    ∧ (uploadHandler true title ownerId (.ok b) (.error ()) now
        = ⟨.serverError, [.blobCall, .ledgerCall]⟩
      ∧ UploadEff.blobCall ∈
          (uploadHandler true title ownerId (.ok b) (.error ()) now).effects
      ∧ UploadEff.dbCreate ∉
          (uploadHandler true title ownerId (.ok b) (.error ()) now).effects
      ∧ UploadEff.blobDelete ∉
          (uploadHandler true title ownerId (.ok b) (.error ()) now).effects)
    ∧ (uploadHandler true title ownerId (.ok b) (.ok l) now).effects
        = [.blobCall, .ledgerCall, .dbCreate] := by
  refine ⟨⟨?_, ?_, ?_⟩, ⟨?_, ?_, ?_, ?_⟩, ?_⟩ <;>
    simp [uploadHandler, hTitle, hLen]

/-- Witness for C5 with the one-character title a. -/
theorem upload_ordering_noRollback_witness :
    ((trimCodes [97]).length == 0) = false
      ∧ ¬(([97] : List Nat).length > 100)
      ∧ ((uploadHandler true [97] 1 (.error ()) (.ok ⟨5, 6, 7, 8⟩) 3
            = ⟨.serverError, [.blobCall]⟩
          ∧ UploadEff.ledgerCall ∉
              (uploadHandler true [97] 1 (.error ()) (.ok ⟨5, 6, 7, 8⟩) 3).effects
          ∧ UploadEff.dbCreate ∉
              (uploadHandler true [97] 1 (.error ()) (.ok ⟨5, 6, 7, 8⟩) 3).effects)
        ∧ (uploadHandler true [97] 1 (.ok ⟨4, 2, none⟩) (.error ()) 3
            = ⟨.serverError, [.blobCall, .ledgerCall]⟩
          ∧ UploadEff.blobCall ∈
              (uploadHandler true [97] 1 (.ok ⟨4, 2, none⟩) (.error ()) 3).effects
          ∧ UploadEff.dbCreate ∉
              (uploadHandler true [97] 1 (.ok ⟨4, 2, none⟩) (.error ()) 3).effects
          ∧ UploadEff.blobDelete ∉
              (uploadHandler true [97] 1 (.ok ⟨4, 2, none⟩) (.error ()) 3).effects)
        ∧ (uploadHandler true [97] 1 (.ok ⟨4, 2, none⟩) (.ok ⟨5, 6, 7, 8⟩) 3).effects
            = [.blobCall, .ledgerCall, .dbCreate]) :=
  ⟨by decide, by decide,
    upload_ordering_noRollback [97] 1 3 ⟨4, 2, none⟩ ⟨5, 6, 7, 8⟩
      (by decide) (by decide)⟩

/-- An application user as the sharing routes see one: record id, email and
active flag. -/
structure User where
  id : Nat
  email : List Nat
  isActive : Bool
deriving DecidableEq

/-- Ledger result of the batched grant call. -/
structure BatchTx where
  transactionHash : Nat
  blockNumber : Nat
  targetAddresses : List Nat
deriving DecidableEq

/-- The user query of the batch-grant route: active users whose email is
among the normalized input emails. -/
def batchTargets (db : List User) (normalized : List (List Nat)) : List User :=
  db.filter (fun u => u.isActive && normalized.contains u.email)

/-- The filter of the batch-grant route: drop the owner and the users already
in the shared-with set. -/
def batchValid (d : Document) (ownerId : Nat) (targets : List User) :
    List User :=
  targets.filter (fun u =>
    !(u.id == ownerId) && !(d.sharedWith.any (fun s => s.user == u.id)))

/-- The not-found report of the batch-grant route: normalized input emails
that matched no found user email. -/
def batchNotFound (db : List User) (userEmails : List (List Nat)) :
    List (List Nat) :=
  (userEmails.map normalizeEmail).filter
    (fun e =>
      !(((batchTargets db (userEmails.map normalizeEmail)).map
          User.email).contains e))

/-- One step of the database update loop of the batch-grant route: shareWith
on the accumulated record, recording the id on success. -/
def batchStep (perm : Perm) (now : Nat) (acc : Document × List Nat)
    (u : User) : Document × List Nat :=
  let r := acc.1.shareWith u.id perm now
  if r.1 then (r.2, acc.2 ++ [u.id]) else (r.2, acc.2)

/-- The database update loop of the batch-grant route over the remaining
targets, returning the final record and the successfully shared ids. -/
def batchApply (d : Document) (valid : List User) (perm : Perm) (now : Nat) :
    Document × List Nat :=
  valid.foldl (batchStep perm now) (d, [])

/-- Responses of the batch grant route POST /batch-grant. -/
inductive BatchResp
  | missingFields
  | tooMany
  | docNotFound
  | notOwner
  | noValidUsers
  | nothingToDo
  | sharedMany (sharedIds : List Nat) (notFound : List (List Nat)) (tx : BatchTx)
  | serverError
deriving DecidableEq

/-- Outcome of the batch grant route. The route issues at most one ledger
call per request, so the issued call is an optional list of the target ids
it covers. -/
structure BatchOut where
  resp : BatchResp
  doc : Option Document
  ledgerCall : Option (List Nat)
deriving DecidableEq

/-- Handler of POST /batch-grant. Validation rejects an empty email array and
more than 50 emails before anything else; after ownership validation the
emails are normalized and resolved against active users, an empty
resolution is rejected as no-valid-users, an empty filtered set as
nothing-to-do, and otherwise the single batched ledger grant is issued for
all remaining targets (a throw propagates as a server error with no record
mutation); on success each remaining target is appended through shareWith
and the unresolved normalized emails are reported as the not-found list. -/
def batchGrantHandler (ownerId : Nat) (doc : Option Document)
    (userEmails : List (List Nat)) (perm : Perm) (db : List User)
    (ledger : Except Unit BatchTx) (now : Nat) : BatchOut :=
  if userEmails.isEmpty then ⟨.missingFields, doc, none⟩
  else if userEmails.length > 50 then ⟨.tooMany, doc, none⟩
  else
    match doc with
    | none => ⟨.docNotFound, none, none⟩
    | some d =>
      if !d.isActive then ⟨.docNotFound, some d, none⟩
      else if !(d.owner == ownerId) then ⟨.notOwner, some d, none⟩
      else
        let normalized := userEmails.map normalizeEmail
        let targetUsers := batchTargets db normalized
        if targetUsers.isEmpty then ⟨.noValidUsers, some d, none⟩
        else
          let validUsers := batchValid d ownerId targetUsers
          if validUsers.isEmpty then ⟨.nothingToDo, some d, none⟩
          else
            match ledger with
            | .error _ => ⟨.serverError, some d, some (validUsers.map User.id)⟩
            | .ok tx =>
              let fr := batchApply d validUsers perm now
              ⟨.sharedMany fr.2 (batchNotFound db userEmails) tx, some fr.1,
                some (validUsers.map User.id)⟩

/-- C6: batch grant boundaries. More than 50 input emails are rejected with
no ledger call whatever the other inputs are. On an active owned document
with a valid email count, a nonempty resolution whose owner-and-already-
shared filter leaves nothing is rejected as nothing-to-do with no ledger
call; a nonempty filtered set leads to exactly one batched ledger call
covering precisely the remaining target ids; and on ledger success the
response carries the not-found list, which holds exactly those normalized
input emails that resolved to no found user email. -/
theorem batchGrant_boundaries (ownerId now : Nat) (d : Document)
    (userEmails : List (List Nat)) (perm : Perm) (db : List User)
    (tx : BatchTx)
    (hActive : d.isActive = true) (hOwn : d.owner = ownerId)
    (hNE : userEmails ≠ []) (hLe : ¬(userEmails.length > 50)) :
    (∀ (o2 : Nat) (doc2 : Option Document) (emails2 : List (List Nat))
        (p2 : Perm) (db2 : List User) (lg2 : Except Unit BatchTx) (n2 : Nat),
        emails2.length > 50 →
        batchGrantHandler o2 doc2 emails2 p2 db2 lg2 n2
          = ⟨.tooMany, doc2, none⟩)
    ∧ (batchTargets db (userEmails.map normalizeEmail) ≠ [] →
        batchValid d ownerId (batchTargets db (userEmails.map normalizeEmail))
            = [] →
        ∀ lg : Except Unit BatchTx,
          batchGrantHandler ownerId (some d) userEmails perm db lg now
            = ⟨.nothingToDo, some d, none⟩)
    ∧ (batchValid d ownerId (batchTargets db (userEmails.map normalizeEmail))
          ≠ [] →
        (∀ lg : Except Unit BatchTx,
          (batchGrantHandler ownerId (some d) userEmails perm db lg now).ledgerCall
            = some ((batchValid d ownerId
                (batchTargets db (userEmails.map normalizeEmail))).map User.id))
        ∧ batchGrantHandler ownerId (some d) userEmails perm db (.ok tx) now
            = ⟨.sharedMany
                  (batchApply d
                    (batchValid d ownerId
                      (batchTargets db (userEmails.map normalizeEmail)))
                    perm now).2
                  (batchNotFound db userEmails) tx,
                some (batchApply d
                  (batchValid d ownerId
                    (batchTargets db (userEmails.map normalizeEmail)))
                  perm now).1,
                some ((batchValid d ownerId
                  (batchTargets db (userEmails.map normalizeEmail))).map
                    User.id)⟩
        ∧ (∀ e ∈ userEmails,
            normalizeEmail e ∈ batchNotFound db userEmails ↔
              ¬ (normalizeEmail e ∈
                  (batchTargets db (userEmails.map normalizeEmail)).map
                    User.email))) := by
  have hne2 : userEmails.isEmpty = false := by
    cases userEmails with
    | nil => exact absurd rfl hNE
    | cons a l => rfl
  refine ⟨?_, ?_, ?_⟩
  · intro o2 doc2 emails2 p2 db2 lg2 n2 hgt
    have h2 : emails2.isEmpty = false := by
      cases emails2 with
      | nil => simp at hgt
      | cons a l => rfl
    cases doc2 with
    | none => simp [batchGrantHandler, h2, hgt]
    | some dd => simp [batchGrantHandler, h2, hgt]
  · intro hTgt hValid lg
    have h3 : (batchTargets db (userEmails.map normalizeEmail)).isEmpty = false := by
      cases h : batchTargets db (userEmails.map normalizeEmail) with
      | nil => exact absurd h hTgt
      | cons a l => rfl
    simp [batchGrantHandler, hne2, hLe, hActive, hOwn, h3, hValid]
  · intro hValid
    have h3 : (batchTargets db (userEmails.map normalizeEmail)).isEmpty = false := by
      cases h : batchTargets db (userEmails.map normalizeEmail) with
      | nil =>
        exact absurd (by simp [batchValid, h]) hValid
      | cons a l => rfl
    have h4 : (batchValid d ownerId
        (batchTargets db (userEmails.map normalizeEmail))).isEmpty = false := by
      cases h : batchValid d ownerId (batchTargets db (userEmails.map normalizeEmail)) with
      | nil => exact absurd h hValid
      | cons a l => rfl
    refine ⟨?_, ?_, ?_⟩
    · intro lg
      cases lg with
      | error e => simp [batchGrantHandler, hne2, hLe, hActive, hOwn, h3, h4]
      | ok t => simp [batchGrantHandler, hne2, hLe, hActive, hOwn, h3, h4]
    · simp [batchGrantHandler, hne2, hLe, hActive, hOwn, h3, h4]
    · intro e heMem
      constructor
      · intro hIn
        rcases List.mem_filter.1 hIn with ⟨hn, hc⟩
        intro hFound
        rw [Bool.not_eq_true'] at hc
        rcases List.mem_map.1 hFound with ⟨u, huMem, huEq⟩
        have : ((batchTargets db (userEmails.map normalizeEmail)).map
            User.email).contains (normalizeEmail e) = true := by
          have : normalizeEmail e ∈
              (batchTargets db (userEmails.map normalizeEmail)).map User.email :=
            List.mem_map.2 ⟨u, huMem, huEq⟩
          exact List.elem_eq_true_of_mem this
        rw [this] at hc
        cases hc
      · intro hNotFound
        apply List.mem_filter.2
        refine ⟨List.mem_map.2 ⟨e, heMem, rfl⟩, ?_⟩
        rw [Bool.not_eq_eq_eq_not]
        simp only [Bool.not_true]
        cases hcon : ((batchTargets db (userEmails.map normalizeEmail)).map
            User.email).contains (normalizeEmail e) with
        | false => rfl
        | true =>
          exact absurd (List.mem_of_elem_eq_true hcon) hNotFound

/-- Witness for C6: owner 1, document already shared with user 2, database
holding active users 2 and 3, input emails a, b, c of which a resolves to
the shared user 2, b to the fresh user 3 and c to nobody. -/
theorem batchGrant_boundaries_witness :
    ((⟨1, [⟨2, .read, 0⟩], true, 0, 0, 0, 0, false, none, []⟩ :
        Document).isActive = true
      ∧ (⟨1, [⟨2, .read, 0⟩], true, 0, 0, 0, 0, false, none, []⟩ :
          Document).owner = 1
      ∧ ([[97], [98], [99]] : List (List Nat)) ≠ []
      ∧ ¬(([[97], [98], [99]] : List (List Nat)).length > 50))
    ∧ ((∀ (o2 : Nat) (doc2 : Option Document) (emails2 : List (List Nat))
          (p2 : Perm) (db2 : List User) (lg2 : Except Unit BatchTx) (n2 : Nat),
          emails2.length > 50 →
          batchGrantHandler o2 doc2 emails2 p2 db2 lg2 n2
            = ⟨.tooMany, doc2, none⟩)
      ∧ (batchTargets [⟨2, [97], true⟩, ⟨3, [98], true⟩]
            (([[97], [98], [99]] : List (List Nat)).map normalizeEmail) ≠ [] →
          batchValid ⟨1, [⟨2, .read, 0⟩], true, 0, 0, 0, 0, false, none, []⟩ 1
              (batchTargets [⟨2, [97], true⟩, ⟨3, [98], true⟩]
                (([[97], [98], [99]] : List (List Nat)).map normalizeEmail))
              = [] →
          ∀ lg : Except Unit BatchTx,
            batchGrantHandler 1
                (some ⟨1, [⟨2, .read, 0⟩], true, 0, 0, 0, 0, false, none, []⟩)
                [[97], [98], [99]] .read [⟨2, [97], true⟩, ⟨3, [98], true⟩] lg 9
              = ⟨.nothingToDo,
                  some ⟨1, [⟨2, .read, 0⟩], true, 0, 0, 0, 0, false, none, []⟩,
                  none⟩)
      ∧ (batchValid ⟨1, [⟨2, .read, 0⟩], true, 0, 0, 0, 0, false, none, []⟩ 1
            (batchTargets [⟨2, [97], true⟩, ⟨3, [98], true⟩]
              (([[97], [98], [99]] : List (List Nat)).map normalizeEmail))
            ≠ [] →
          (∀ lg : Except Unit BatchTx,
            (batchGrantHandler 1
                (some ⟨1, [⟨2, .read, 0⟩], true, 0, 0, 0, 0, false, none, []⟩)
                [[97], [98], [99]] .read [⟨2, [97], true⟩, ⟨3, [98], true⟩]
                lg 9).ledgerCall
              = some ((batchValid
                  ⟨1, [⟨2, .read, 0⟩], true, 0, 0, 0, 0, false, none, []⟩ 1
                  (batchTargets [⟨2, [97], true⟩, ⟨3, [98], true⟩]
                    (([[97], [98], [99]] : List (List Nat)).map
                      normalizeEmail))).map User.id))
          ∧ batchGrantHandler 1
              (some ⟨1, [⟨2, .read, 0⟩], true, 0, 0, 0, 0, false, none, []⟩)
              [[97], [98], [99]] .read [⟨2, [97], true⟩, ⟨3, [98], true⟩]
              (.ok ⟨5, 6, [7]⟩) 9
            = ⟨.sharedMany
                  (batchApply
                    ⟨1, [⟨2, .read, 0⟩], true, 0, 0, 0, 0, false, none, []⟩
                    (batchValid
                      ⟨1, [⟨2, .read, 0⟩], true, 0, 0, 0, 0, false, none, []⟩ 1
                      (batchTargets [⟨2, [97], true⟩, ⟨3, [98], true⟩]
                        (([[97], [98], [99]] : List (List Nat)).map
                          normalizeEmail)))
                    .read 9).2
                  (batchNotFound [⟨2, [97], true⟩, ⟨3, [98], true⟩]
                    [[97], [98], [99]])
                  ⟨5, 6, [7]⟩,
                some (batchApply
                  ⟨1, [⟨2, .read, 0⟩], true, 0, 0, 0, 0, false, none, []⟩
                  (batchValid
                    ⟨1, [⟨2, .read, 0⟩], true, 0, 0, 0, 0, false, none, []⟩ 1
                    (batchTargets [⟨2, [97], true⟩, ⟨3, [98], true⟩]
                      (([[97], [98], [99]] : List (List Nat)).map
                        normalizeEmail)))
                  .read 9).1,
                some ((batchValid
                  ⟨1, [⟨2, .read, 0⟩], true, 0, 0, 0, 0, false, none, []⟩ 1
                  (batchTargets [⟨2, [97], true⟩, ⟨3, [98], true⟩]
                    (([[97], [98], [99]] : List (List Nat)).map
                      normalizeEmail))).map User.id)⟩
          ∧ (∀ e ∈ ([[97], [98], [99]] : List (List Nat)),
              normalizeEmail e ∈
                  batchNotFound [⟨2, [97], true⟩, ⟨3, [98], true⟩]
                    [[97], [98], [99]] ↔
                ¬ (normalizeEmail e ∈
                    (batchTargets [⟨2, [97], true⟩, ⟨3, [98], true⟩]
                      (([[97], [98], [99]] : List (List Nat)).map
                        normalizeEmail)).map User.email)))) :=
  ⟨⟨by decide, rfl, by decide, by decide⟩,
    batchGrant_boundaries 1 9
      ⟨1, [⟨2, .read, 0⟩], true, 0, 0, 0, 0, false, none, []⟩
      [[97], [98], [99]] .read [⟨2, [97], true⟩, ⟨3, [98], true⟩] ⟨5, 6, [7]⟩
      (by decide) rfl (by decide) (by decide)⟩

/-- Responses of the delete route DELETE /:id. -/
inductive DeleteResp
  | docNotFound
  | notOwner
  | deleted
deriving DecidableEq

/-- Outcome of the delete route. -/
structure DeleteOut where
  resp : DeleteResp
  doc : Option Document
deriving DecidableEq

/-- Handler of DELETE /:id. Owner-only; the ledger document removal and the
blob unpin are each wrapped in their own catch whose body only logs, so
both outcomes are ignored and the soft delete (isActive set to false)
always proceeds for the owner of an active document. -/
def deleteHandler (userId : Nat) (doc : Option Document)
    (ledgerRemove : Except Unit Unit) (unpin : Except Unit Unit) : DeleteOut :=
  match doc, ledgerRemove, unpin with
  | none, _, _ => ⟨.docNotFound, none⟩
  | some d, _, _ =>
    if !d.isActive then ⟨.docNotFound, some d⟩
    else if !(d.owner == userId) then ⟨.notOwner, some d⟩
    else ⟨.deleted, some { d with isActive := false }⟩

/-- Responses of the document fetch route GET /:id. -/
inductive FetchResp
  | docNotFound
  | accessDenied
  | fetched (doc : Document)
deriving DecidableEq

/-- Outcome of the fetch route. -/
structure FetchOut where
  resp : FetchResp
  doc : Option Document
deriving DecidableEq

/-- Handler of GET /:id: local access validation, then the last-accessed
time is refreshed and the record returned. -/
def getDocumentHandler (userId : Nat) (doc : Option Document) (now : Nat) :
    FetchOut :=
  match doc with
  | none => ⟨.docNotFound, none⟩
  | some d =>
    if !d.isActive then ⟨.docNotFound, some d⟩
    else if !(d.hasAccess userId) then ⟨.accessDenied, some d⟩
    else ⟨.fetched { d with lastAccessedAt := now },
          some { d with lastAccessedAt := now }⟩

/-- Responses of the metadata update route PUT /:id. -/
inductive UpdateResp
  | noTitle
  | titleTooLong
  | docNotFound
  | notOwner
  | updated
deriving DecidableEq

/-- Outcome of the update route. -/
structure UpdateOut where
  resp : UpdateResp
  doc : Option Document
deriving DecidableEq

/-- Handler of PUT /:id: title validation, not-found on missing or inactive
records, owner-only, then the title is replaced by its trimmed form. -/
def updateDocumentHandler (userId : Nat) (title : List Nat)
    (doc : Option Document) : UpdateOut :=
  if (trimCodes title).length == 0 then ⟨.noTitle, doc⟩
  else if title.length > 100 then ⟨.titleTooLong, doc⟩
  else
    match doc with
    | none => ⟨.docNotFound, none⟩
    | some d =>
      if !d.isActive then ⟨.docNotFound, some d⟩
      else if !(d.owner == userId) then ⟨.notOwner, some d⟩
      else ⟨.updated, some { d with title := trimCodes title }⟩

/-- shareWith never changes the active flag. -/
theorem shareWith_isActive (d : Document) (u : Nat) (p : Perm) (n : Nat) :
    (d.shareWith u p n).2.isActive = d.isActive := by
  simp only [Document.shareWith]
  repeat' split
  all_goals rfl

/-- unshareWith never changes the active flag. -/
theorem unshareWith_isActive (d : Document) (u : Nat) :
    (d.unshareWith u).2.isActive = d.isActive := rfl

/-- The batch database loop never changes the active flag. -/
theorem batchFold_isActive (valid : List User) (p : Perm) (n : Nat) :
    ∀ (d : Document) (acc : List Nat),
      ((valid.foldl (batchStep p n) (d, acc)).1).isActive = d.isActive := by
  induction valid with
  | nil => intro d acc; rfl
  | cons u rest ih =>
    intro d acc
    have hstep : ((batchStep p n (d, acc) u).1).isActive = d.isActive := by
      simp only [batchStep]
      split
      all_goals simp [shareWith_isActive]
    simp only [List.foldl_cons]
    exact (ih (batchStep p n (d, acc) u).1 (batchStep p n (d, acc) u).2).trans hstep

/-- The grant route never changes the active flag of the record it returns. -/
theorem grantHandler_doc_isActive (m : Bool) (o : Nat) (d : Document)
    (t : Option Nat) (p : Perm) (lg : Except Unit Tx) (dtx : Tx) (n : Nat)
    (d2 : Document)
    (h : (grantHandler m o (some d) t p lg dtx n).doc = some d2) :
    d2.isActive = d.isActive := by
  simp only [grantHandler] at h
  repeat' split at h
  all_goals simp only [Option.some.injEq] at h
  all_goals subst h
  all_goals first
  | rfl
  | exact shareWith_isActive d _ p n

/-- The revoke route never changes the active flag of the record it returns. -/
theorem revokeHandler_doc_isActive (o : Nat) (d : Document) (tf : Bool)
    (t : Nat) (lg : Except Unit Tx) (d2 : Document)
    (h : (revokeHandler o (some d) tf t lg).doc = some d2) :
    d2.isActive = d.isActive := by
  simp only [revokeHandler] at h
  repeat' split at h
  all_goals simp only [Option.some.injEq] at h
  all_goals subst h
  all_goals rfl

/-- The download route never changes the active flag of the record it
returns. -/
theorem downloadHandler_doc_isActive (m : Bool) (u : Nat) (d : Document)
    (lg : Except Unit Bool) (ip : Except Unit (List Nat)) (n : Nat)
    (d2 : Document)
    (h : (downloadHandler m u (some d) lg ip n).doc = some d2) :
    d2.isActive = d.isActive := by
  simp only [downloadHandler] at h
  repeat' split at h
  all_goals simp only [Option.some.injEq] at h
  all_goals subst h
  all_goals rfl

/-- The batch grant route never changes the active flag of the record it
returns. -/
theorem batchGrantHandler_doc_isActive (o : Nat) (d : Document)
    (es : List (List Nat)) (p : Perm) (db : List User)
    (lg : Except Unit BatchTx) (n : Nat) (d2 : Document)
    (h : (batchGrantHandler o (some d) es p db lg n).doc = some d2) :
    d2.isActive = d.isActive := by
  simp only [batchGrantHandler, batchApply] at h
  repeat' split at h
  all_goals simp only [Option.some.injEq] at h
  all_goals subst h
  all_goals first
  | rfl
  | exact batchFold_isActive _ p n d []

/-- The update route never changes the active flag of the record it
returns. -/
theorem updateHandler_doc_isActive (u : Nat) (t : List Nat) (d : Document)
    (d2 : Document)
    (h : (updateDocumentHandler u t (some d)).doc = some d2) :
    d2.isActive = d.isActive := by
  simp only [updateDocumentHandler] at h
  repeat' split at h
  all_goals simp only [Option.some.injEq] at h
  all_goals subst h
  all_goals rfl

/-- The fetch route never changes the active flag of the record it returns. -/
theorem getHandler_doc_isActive (u : Nat) (d : Document) (n : Nat)
    (d2 : Document)
    (h : (getDocumentHandler u (some d) n).doc = some d2) :
    d2.isActive = d.isActive := by
  simp only [getDocumentHandler] at h
  repeat' split at h
  all_goals simp only [Option.some.injEq] at h
  all_goals subst h
  all_goals rfl

/-- The delete route either keeps the active flag or sets it to false. -/
theorem deleteHandler_doc_isActive (u : Nat) (d : Document)
    (lr up : Except Unit Unit) (d2 : Document)
    (h : (deleteHandler u (some d) lr up).doc = some d2) :
    d2.isActive = d.isActive ∨ d2.isActive = false := by
  simp only [deleteHandler] at h
  repeat' split at h
  all_goals simp only [Option.some.injEq] at h
  all_goals subst h
  all_goals first
  | exact Or.inl rfl
  | exact Or.inr rfl

/-- C8: deletion is owner-only; the ledger removal and the blob unpin are
best-effort, so for the owner of an active document the soft delete
proceeds to the same result whatever both outcomes are; once a record is
inactive every modeled operation that returns a record returns it still
inactive (the flag never returns to true); and every subsequent fetch of
an inactive record (fetch, download, access check) answers not-found. -/
theorem delete_bestEffort_softDelete_terminal (userId : Nat) (d : Document)
    (hActive : d.isActive = true) :
    (¬(d.owner = userId) →
      ∀ lr up : Except Unit Unit,
        deleteHandler userId (some d) lr up = ⟨.notOwner, some d⟩)
    ∧ (d.owner = userId →
        ∀ lr up : Except Unit Unit,
          deleteHandler userId (some d) lr up
            = ⟨.deleted, some { d with isActive := false }⟩)
    ∧ (∀ d0 : Document, d0.isActive = false →
        (∀ (m : Bool) (o : Nat) (t : Option Nat) (p : Perm)
            (lg : Except Unit Tx) (dtx : Tx) (n : Nat) (d2 : Document),
            (grantHandler m o (some d0) t p lg dtx n).doc = some d2 →
            d2.isActive = false)
        ∧ (∀ (o t : Nat) (tf : Bool) (lg : Except Unit Tx) (d2 : Document),
            (revokeHandler o (some d0) tf t lg).doc = some d2 →
            d2.isActive = false)
        ∧ (∀ (m : Bool) (u n : Nat) (lg : Except Unit Bool)
            (ip : Except Unit (List Nat)) (d2 : Document),
            (downloadHandler m u (some d0) lg ip n).doc = some d2 →
            d2.isActive = false)
        ∧ (∀ (u : Nat) (lr up : Except Unit Unit) (d2 : Document),
            (deleteHandler u (some d0) lr up).doc = some d2 →
            d2.isActive = false)
        ∧ (∀ (o n : Nat) (es : List (List Nat)) (p : Perm) (db : List User)
            (lg : Except Unit BatchTx) (d2 : Document),
            (batchGrantHandler o (some d0) es p db lg n).doc = some d2 →
            d2.isActive = false)
        ∧ (∀ (u : Nat) (t : List Nat) (d2 : Document),
            (updateDocumentHandler u t (some d0)).doc = some d2 →
            d2.isActive = false)
        ∧ (∀ (u n : Nat) (d2 : Document),
            (getDocumentHandler u (some d0) n).doc = some d2 →
            d2.isActive = false))
    ∧ (∀ d0 : Document, d0.isActive = false →
        (∀ u n : Nat,
          (getDocumentHandler u (some d0) n).resp = .docNotFound)
        ∧ (∀ (m : Bool) (u n : Nat) (lg : Except Unit Bool)
            (ip : Except Unit (List Nat)),
            (downloadHandler m u (some d0) lg ip n).resp = .docNotFound)
        ∧ (∀ (u : Nat) (lg : Except Unit Bool),
            accessCheckHandler (some d0) u lg = ⟨false, false, false, false⟩)) := by
  refine ⟨?_, ?_, ?_, ?_⟩
  · intro hno lr up
    have hb : (d.owner == userId) = false := by simp [hno]
    simp [deleteHandler, hActive, hb]
  · intro hyes lr up
    simp [deleteHandler, hActive, hyes]
  · intro d0 h0
    refine ⟨?_, ?_, ?_, ?_, ?_, ?_, ?_⟩
    · intro m o t p lg dtx n d2 h
      exact (grantHandler_doc_isActive m o d0 t p lg dtx n d2 h).trans h0
    · intro o t tf lg d2 h
      exact (revokeHandler_doc_isActive o d0 tf t lg d2 h).trans h0
    · intro m u n lg ip d2 h
      exact (downloadHandler_doc_isActive m u d0 lg ip n d2 h).trans h0
    · intro u lr up d2 h
      rcases deleteHandler_doc_isActive u d0 lr up d2 h with h1 | h1
      · exact h1.trans h0
      · exact h1
    · intro o n es p db lg d2 h
      exact (batchGrantHandler_doc_isActive o d0 es p db lg n d2 h).trans h0
    · intro u t d2 h
      exact (updateHandler_doc_isActive u t d0 d2 h).trans h0
    · intro u n d2 h
      exact (getHandler_doc_isActive u d0 n d2 h).trans h0
  · intro d0 h0
    refine ⟨?_, ?_, ?_⟩
    · intro u n
      simp [getDocumentHandler, h0]
    · intro m u n lg ip
      simp [downloadHandler, h0]
    · intro u lg
      simp [accessCheckHandler, h0]

/-- Witness for C8 with owner 1 deleting an active unshared document. -/
theorem delete_bestEffort_softDelete_terminal_witness :
    (⟨1, [], true, 0, 0, 0, 0, false, none, []⟩ : Document).isActive = true
    ∧ ((¬((⟨1, [], true, 0, 0, 0, 0, false, none, []⟩ : Document).owner = 1) →
        ∀ lr up : Except Unit Unit,
          deleteHandler 1 (some ⟨1, [], true, 0, 0, 0, 0, false, none, []⟩) lr up
            = ⟨.notOwner, some ⟨1, [], true, 0, 0, 0, 0, false, none, []⟩⟩)
      ∧ ((⟨1, [], true, 0, 0, 0, 0, false, none, []⟩ : Document).owner = 1 →
          ∀ lr up : Except Unit Unit,
            deleteHandler 1 (some ⟨1, [], true, 0, 0, 0, 0, false, none, []⟩) lr up
              = ⟨.deleted,
                  some { (⟨1, [], true, 0, 0, 0, 0, false, none, []⟩ : Document)
                          with isActive := false }⟩)
      ∧ (∀ d0 : Document, d0.isActive = false →
          (∀ (m : Bool) (o : Nat) (t : Option Nat) (p : Perm)
              (lg : Except Unit Tx) (dtx : Tx) (n : Nat) (d2 : Document),
              (grantHandler m o (some d0) t p lg dtx n).doc = some d2 →
              d2.isActive = false)
          ∧ (∀ (o t : Nat) (tf : Bool) (lg : Except Unit Tx) (d2 : Document),
              (revokeHandler o (some d0) tf t lg).doc = some d2 →
              d2.isActive = false)
          ∧ (∀ (m : Bool) (u n : Nat) (lg : Except Unit Bool)
              (ip : Except Unit (List Nat)) (d2 : Document),
              (downloadHandler m u (some d0) lg ip n).doc = some d2 →
              d2.isActive = false)
          ∧ (∀ (u : Nat) (lr up : Except Unit Unit) (d2 : Document),
              (deleteHandler u (some d0) lr up).doc = some d2 →
              d2.isActive = false)
          ∧ (∀ (o n : Nat) (es : List (List Nat)) (p : Perm) (db : List User)
              (lg : Except Unit BatchTx) (d2 : Document),
              (batchGrantHandler o (some d0) es p db lg n).doc = some d2 →
              d2.isActive = false)
          ∧ (∀ (u : Nat) (t : List Nat) (d2 : Document),
              (updateDocumentHandler u t (some d0)).doc = some d2 →
              d2.isActive = false)
          ∧ (∀ (u n : Nat) (d2 : Document),
              (getDocumentHandler u (some d0) n).doc = some d2 →
              d2.isActive = false))
      ∧ (∀ d0 : Document, d0.isActive = false →
          (∀ u n : Nat,
            (getDocumentHandler u (some d0) n).resp = .docNotFound)
          ∧ (∀ (m : Bool) (u n : Nat) (lg : Except Unit Bool)
              (ip : Except Unit (List Nat)),
              (downloadHandler m u (some d0) lg ip n).resp = .docNotFound)
          ∧ (∀ (u : Nat) (lg : Except Unit Bool),
              accessCheckHandler (some d0) u lg
                = ⟨false, false, false, false⟩))) :=
  ⟨by decide,
    delete_bestEffort_softDelete_terminal 1
      ⟨1, [], true, 0, 0, 0, 0, false, none, []⟩ (by decide)⟩

/-- The additional authenticated data both adapters set: the byte string
ipfs-document. -/
def aadBytes : List Nat :=
  [105, 112, 102, 115, 45, 100, 111, 99, 117, 109, 101, 110, 116]

/-- Interface of the Node crypto AEAD cipher as the adapters use it through
createCipher and createDecipher: both sides derive the internal key and
nonce deterministically from the same passed key material, so the cipher
is a function of key, additional data and payload; encryption returns the
ciphertext with a 16-byte auth tag and decryption takes the tag and the
ciphertext back to the payload when they verify. -/
structure AEAD where
  enc : List Nat → List Nat → List Nat → List Nat × List Nat
  dec : List Nat → List Nat → List Nat → List Nat → Option (List Nat)

/-- Result of encryptBuffer: the framed buffer and the key handed back to
the caller. -/
structure EncBufRes where
  encryptedBuffer : List Nat
  key : List Nat
deriving DecidableEq

/-- encryptBuffer of both adapters: a fresh 32-byte key and fresh 16-byte iv
are drawn per call (passed here as the key and iv parameters), the payload
is encrypted under the key with the fixed additional data, and the output
frame is iv, then auth tag, then ciphertext, with the key returned to the
caller and retained nowhere else. -/
def encryptBuffer (cipher : AEAD) (key iv buffer : List Nat) : EncBufRes :=
  let c := cipher.enc key aadBytes buffer
  ⟨iv ++ c.2 ++ c.1, key⟩

/-- decryptBuffer of both adapters: the first 16 bytes are read as the iv
(extracted but unused, since createDecipher re-derives the nonce from the
key), the next 16 as the auth tag, and the rest is decrypted under the
caller-supplied key with the fixed additional data. -/
def decryptBuffer (cipher : AEAD) (key encryptedBuffer : List Nat) :
    Option (List Nat) :=
  let authTag := (encryptedBuffer.drop 16).take 16
  let encrypted := encryptedBuffer.drop 32
  cipher.dec key aadBytes authTag encrypted

/-- C9: for any cipher satisfying the crypto library contract at the given
input (16-byte tag and tag-checked inversion), decrypting the frame built
by encryptBuffer with the returned key yields the original buffer — for
every buffer, the empty, one-byte and megabyte cases included — and the
key field of the result is exactly the per-call fresh key, handed back to
the caller. -/
theorem encryptBuffer_decryptBuffer_roundTrip (cipher : AEAD)
    (key iv buffer : List Nat)
    (hIv : iv.length = 16)
    (hTag : (cipher.enc key aadBytes buffer).2.length = 16)
    (hDec : cipher.dec key aadBytes (cipher.enc key aadBytes buffer).2
        (cipher.enc key aadBytes buffer).1 = some buffer) :
    decryptBuffer cipher key
        (encryptBuffer cipher key iv buffer).encryptedBuffer = some buffer
      ∧ (encryptBuffer cipher key iv buffer).key = key := by
  constructor
  · simp only [encryptBuffer, decryptBuffer]
    have h1 : (iv ++ (cipher.enc key aadBytes buffer).2
          ++ (cipher.enc key aadBytes buffer).1).drop 16
        = (cipher.enc key aadBytes buffer).2
          ++ (cipher.enc key aadBytes buffer).1 := by
      rw [List.append_assoc, ← hIv, List.drop_left]
    have h2 : ((cipher.enc key aadBytes buffer).2
          ++ (cipher.enc key aadBytes buffer).1).take 16
        = (cipher.enc key aadBytes buffer).2 := by
      rw [← hTag, List.take_left]
    have h3 : (iv ++ (cipher.enc key aadBytes buffer).2
          ++ (cipher.enc key aadBytes buffer).1).drop 32
        = (cipher.enc key aadBytes buffer).1 := by
      have hl : (iv ++ (cipher.enc key aadBytes buffer).2).length = 32 := by
        rw [List.length_append, hIv, hTag]
      rw [← hl, List.drop_left]
    rw [h1, h2, h3]
    exact hDec
  · rfl

/-- Executable model cipher standing in for aes-256-gcm in witnesses: a
keystream xor with a 16-byte checksum tag. -/
def streamByte (key : List Nat) (j : Nat) : Nat :=
  (key.getD (j % (key.length + 1)) 0 + j) % 256

/-- Keystream xor of the model cipher. -/
def xorStream (key : List Nat) : Nat → List Nat → List Nat
  | _, [] => []
  | j, b :: rest => (b ^^^ streamByte key j) :: xorStream key (j + 1) rest

/-- Tag of the model cipher. -/
def modelTag (key aad pt : List Nat) : List Nat :=
  List.replicate 16 ((key.sum + aad.length + pt.length) % 256)

/-- The model cipher packaged as an AEAD. -/
def modelAead : AEAD :=
  { enc := fun key aad pt => (xorStream key 0 pt, modelTag key aad pt)
    dec := fun key aad tag ct =>
      let pt := xorStream key 0 ct
      if tag == modelTag key aad pt then some pt else none }

/-- Witness for C9 with the model cipher, a concrete 3-byte key, a 16-byte
iv and the 2-byte buffer 7, 8. -/
theorem encryptBuffer_decryptBuffer_roundTrip_witness :
    (List.replicate 16 0).length = 16
      ∧ (modelAead.enc [1, 2, 3] aadBytes [7, 8]).2.length = 16
      ∧ modelAead.dec [1, 2, 3] aadBytes
          (modelAead.enc [1, 2, 3] aadBytes [7, 8]).2
          (modelAead.enc [1, 2, 3] aadBytes [7, 8]).1 = some [7, 8]
      ∧ (decryptBuffer modelAead [1, 2, 3]
            (encryptBuffer modelAead [1, 2, 3] (List.replicate 16 0)
              [7, 8]).encryptedBuffer = some [7, 8]
        ∧ (encryptBuffer modelAead [1, 2, 3] (List.replicate 16 0)
            [7, 8]).key = [1, 2, 3]) :=
  ⟨by decide, by decide, by decide,
    encryptBuffer_decryptBuffer_roundTrip modelAead [1, 2, 3]
      (List.replicate 16 0) [7, 8] (by decide) (by decide) (by decide)⟩

/-- One registered document of the simulated ledger. -/
structure ChainDoc where
  ipfsHash : Nat
  owner : Nat
  metadata : Nat
  createdAt : Nat
deriving DecidableEq

/-- State of the simulated ledger DevBlockchainService: the connection flag
(set true in the constructor and never written afterwards), the documents
map, and the permissions map whose keys pair a document id with a wallet
address (the JS Map holds the constant value true, so it is a key set). -/
structure DevChainState where
  isConnected : Bool
  documents : List (Nat × ChainDoc)
  permissions : List (Nat × Nat)
deriving DecidableEq

/-- Map.set on the permission key set. -/
def permSet (l : List (Nat × Nat)) (k : Nat × Nat) : List (Nat × Nat) :=
  if l.contains k then l else k :: l

/-- Map.delete on the permission key set. -/
def permDelete (l : List (Nat × Nat)) (k : Nat × Nat) : List (Nat × Nat) :=
  l.filter (fun x => !(x == k))

/-- Map.get on the documents map (first binding wins, as later set calls
shadow earlier ones under this lookup). -/
def docLookup (l : List (Nat × ChainDoc)) (k : Nat) : Option ChainDoc :=
  (l.find? (fun x => x.1 == k)).map (fun x => x.2)

/-- The deterministic document id derivation of the simulated ledger, a
collision-free stand-in for the sha256 of userId, ipfsHash and timestamp. -/
def genDocId (userId ipfsHash now : Nat) : Nat :=
  Nat.pair userId (Nat.pair ipfsHash now)

/-- DevBlockchainService.addDocument: derives the owner wallet, stores the
document record under a fresh deterministic id, and immediately inserts
the owner address into the permission set of that id. The wallet
derivation w models getUserWallet (pure and deterministic, so the cache is
irrelevant); txh and bn model the random transaction fields. -/
def devAddDocument (w : Nat → Nat) (st : DevChainState)
    (userId ipfsHash metadata now txh bn : Nat) :
    Except Unit (DevChainState × LedgerAddRes) :=
  if !st.isConnected then .error ()
  else
    let addr := w userId
    let docId := genDocId userId ipfsHash now
    .ok ({ st with
            documents := (docId, ⟨ipfsHash, addr, metadata, now⟩) :: st.documents
            permissions := permSet st.permissions (docId, addr) },
         ⟨docId, txh, bn, addr⟩)

/-- DevBlockchainService.hasAccess: membership of the derived wallet in the
permission set of the document id. -/
def devHasAccess (w : Nat → Nat) (st : DevChainState) (userId docId : Nat) :
    Except Unit Bool :=
  if !st.isConnected then .error ()
  else .ok (st.permissions.contains (docId, w userId))

/-- DevBlockchainService.grantAccess: requires the document to exist and the
caller to be its owner, then inserts the target wallet into the permission
set. -/
def devGrantAccess (w : Nat → Nat) (st : DevChainState)
    (ownerUserId docId targetUserId txh bn : Nat) :
    Except Unit (DevChainState × Tx) :=
  if !st.isConnected then .error ()
  else
    match docLookup st.documents docId with
    | none => .error ()
    | some doc =>
      if !(doc.owner == w ownerUserId) then .error ()
      else
        .ok ({ st with
                permissions := permSet st.permissions (docId, w targetUserId) },
             ⟨txh, bn, w targetUserId⟩)

/-- DevBlockchainService.revokeAccess: requires the document to exist and
the caller to be its owner, then deletes the target wallet from the
permission set. -/
def devRevokeAccess (w : Nat → Nat) (st : DevChainState)
    (ownerUserId docId targetUserId txh bn : Nat) :
    Except Unit (DevChainState × Tx) :=
  if !st.isConnected then .error ()
  else
    match docLookup st.documents docId with
    | none => .error ()
    | some doc =>
      if !(doc.owner == w ownerUserId) then .error ()
      else
        .ok ({ st with
                permissions := permDelete st.permissions (docId, w targetUserId) },
             ⟨txh, bn, w targetUserId⟩)

/-- DevBlockchainService.batchGrantAccess: inserts every target wallet into
the permission set of the document id (the simulated batch grant performs
no existence or ownership check). -/
def devBatchGrantAccess (w : Nat → Nat) (st : DevChainState)
    (ownerUserId docId : Nat) (targetUserIds : List Nat) (txh bn : Nat) :
    Except Unit (DevChainState × BatchTx) :=
  if !st.isConnected then .error ()
  else
    let addrs := targetUserIds.map w
    .ok ({ st with
            permissions :=
              addrs.foldl (fun acc a => permSet acc (docId, a)) st.permissions },
         ⟨txh, bn, addrs⟩)

/-- permSet puts its key in the set. -/
theorem permSet_contains_self (l : List (Nat × Nat)) (k : Nat × Nat) :
    (permSet l k).contains k = true := by
  simp only [permSet]
  split
  · assumption
  · simp [List.contains_cons]

/-- permSet keeps every key already in the set. -/
theorem permSet_contains_mono (l : List (Nat × Nat)) (k k0 : Nat × Nat)
    (h : l.contains k0 = true) : (permSet l k).contains k0 = true := by
  simp only [permSet]
  split
  · exact h
  · simp [List.contains_cons]
    exact Or.inr (List.mem_of_elem_eq_true h)

/-- A fold of permSet keeps every key already in the set. -/
theorem permFold_contains (addrs : List Nat) (docId : Nat) (k0 : Nat × Nat) :
    ∀ l : List (Nat × Nat), l.contains k0 = true →
      (addrs.foldl (fun acc a => permSet acc (docId, a)) l).contains k0
        = true := by
  induction addrs with
  | nil => intro l h; exact h
  | cons a rest ih =>
    intro l h
    exact ih _ (permSet_contains_mono _ _ _ h)

/-- permDelete keeps every key other than the deleted one. -/
theorem permDelete_contains (l : List (Nat × Nat)) (k k0 : Nat × Nat)
    (hne : ¬(k0 = k)) (h : l.contains k0 = true) :
    (permDelete l k).contains k0 = true := by
  have hm : k0 ∈ l := List.mem_of_elem_eq_true h
  have : k0 ∈ permDelete l k := by
    apply List.mem_filter.2
    refine ⟨hm, ?_⟩
    simp [hne]
  exact List.elem_eq_true_of_mem this

/-- C10: on a connected simulated ledger, addDocument succeeds and the owner
passes the has-access query on the returned document id immediately; the
owner permission key survives every further addDocument, grantAccess and
batchGrantAccess, and survives any revokeAccess whose document id and
derived target wallet do not both match it; and has-access answers true on
any connected state whose permission set holds the key — so the owner
keeps ledger access after any sequence of operations containing no removal
of that very key. -/
theorem devChain_owner_hasAccess (w : Nat → Nat) (st : DevChainState)
    (userId ipfsHash metadata now txh bn : Nat)
    (hConn : st.isConnected = true) :
    (∃ st2 res,
      devAddDocument w st userId ipfsHash metadata now txh bn = .ok (st2, res)
        ∧ devHasAccess w st2 userId res.documentId = .ok true
        ∧ st2.isConnected = true
        ∧ st2.permissions.contains (res.documentId, w userId) = true)
    ∧ (∀ (st1 st2 : DevChainState) (docId addr o i m n t b : Nat)
        (res : LedgerAddRes),
        devAddDocument w st1 o i m n t b = .ok (st2, res) →
        st1.permissions.contains (docId, addr) = true →
        st2.permissions.contains (docId, addr) = true
          ∧ st2.isConnected = st1.isConnected)
    ∧ (∀ (st1 st2 : DevChainState) (docId addr o dId tId t b : Nat) (res : Tx),
        devGrantAccess w st1 o dId tId t b = .ok (st2, res) →
        st1.permissions.contains (docId, addr) = true →
        st2.permissions.contains (docId, addr) = true
          ∧ st2.isConnected = st1.isConnected)
    ∧ (∀ (st1 st2 : DevChainState) (docId addr o dId t b : Nat)
        (tIds : List Nat) (res : BatchTx),
        devBatchGrantAccess w st1 o dId tIds t b = .ok (st2, res) →
        st1.permissions.contains (docId, addr) = true →
        st2.permissions.contains (docId, addr) = true
          ∧ st2.isConnected = st1.isConnected)
    ∧ (∀ (st1 st2 : DevChainState) (docId addr o dId tId t b : Nat) (res : Tx),
        devRevokeAccess w st1 o dId tId t b = .ok (st2, res) →
        ¬((docId, addr) = (dId, w tId)) →
        st1.permissions.contains (docId, addr) = true →
        st2.permissions.contains (docId, addr) = true
          ∧ st2.isConnected = st1.isConnected)
    ∧ (∀ (st1 : DevChainState) (u dId : Nat),
        st1.isConnected = true →
        st1.permissions.contains (dId, w u) = true →
        devHasAccess w st1 u dId = .ok true) := by
  refine ⟨?_, ?_, ?_, ?_, ?_, ?_⟩
  · refine ⟨{ st with
        documents := (genDocId userId ipfsHash now,
          ⟨ipfsHash, w userId, metadata, now⟩) :: st.documents
        permissions := permSet st.permissions
          (genDocId userId ipfsHash now, w userId) },
      ⟨genDocId userId ipfsHash now, txh, bn, w userId⟩, ?_, ?_, ?_, ?_⟩
    · simp [devAddDocument, hConn]
    · simp [devHasAccess, hConn]
      exact List.mem_of_elem_eq_true (permSet_contains_self _ _)
    · simp [hConn]
    · simp
      exact List.mem_of_elem_eq_true (permSet_contains_self _ _)
  · intro st1 st2 docId addr o i m n t b res hOk hIn
    simp only [devAddDocument] at hOk
    split at hOk
    · cases hOk
    · simp only [Except.ok.injEq, Prod.mk.injEq] at hOk
      rcases hOk with ⟨h2, _⟩
      subst h2
      exact ⟨permSet_contains_mono _ _ _ hIn, rfl⟩
  · intro st1 st2 docId addr o dId tId t b res hOk hIn
    simp only [devGrantAccess] at hOk
    split at hOk
    · cases hOk
    · split at hOk
      · cases hOk
      · split at hOk
        · cases hOk
        · simp only [Except.ok.injEq, Prod.mk.injEq] at hOk
          rcases hOk with ⟨h2, _⟩
          subst h2
          exact ⟨permSet_contains_mono _ _ _ hIn, rfl⟩
  · intro st1 st2 docId addr o dId t b tIds res hOk hIn
    simp only [devBatchGrantAccess] at hOk
    split at hOk
    · cases hOk
    · simp only [Except.ok.injEq, Prod.mk.injEq] at hOk
      rcases hOk with ⟨h2, _⟩
      subst h2
      exact ⟨permFold_contains _ _ _ _ hIn, rfl⟩
  · intro st1 st2 docId addr o dId tId t b res hOk hne hIn
    simp only [devRevokeAccess] at hOk
    split at hOk
    · cases hOk
    · split at hOk
      · cases hOk
      · split at hOk
        · cases hOk
        · simp only [Except.ok.injEq, Prod.mk.injEq] at hOk
          rcases hOk with ⟨h2, _⟩
          subst h2
          exact ⟨permDelete_contains _ _ _ hne hIn, rfl⟩
  · intro st1 u dId hc hIn
    simp [devHasAccess, hc, hIn]
    exact List.mem_of_elem_eq_true hIn

/-- Witness for C10 on the freshly constructed simulated ledger state. -/
theorem devChain_owner_hasAccess_witness :
    (⟨true, [], []⟩ : DevChainState).isConnected = true
    ∧ ((∃ st2 res,
        devAddDocument (fun u => u + 100) ⟨true, [], []⟩ 1 5 6 7 8 9
            = .ok (st2, res)
          ∧ devHasAccess (fun u => u + 100) st2 1 res.documentId = .ok true
          ∧ st2.isConnected = true
          ∧ st2.permissions.contains (res.documentId, (fun u => u + 100) 1)
              = true)
      ∧ (∀ (st1 st2 : DevChainState) (docId addr o i m n t b : Nat)
          (res : LedgerAddRes),
          devAddDocument (fun u => u + 100) st1 o i m n t b = .ok (st2, res) →
          st1.permissions.contains (docId, addr) = true →
          st2.permissions.contains (docId, addr) = true
            ∧ st2.isConnected = st1.isConnected)
      ∧ (∀ (st1 st2 : DevChainState) (docId addr o dId tId t b : Nat)
          (res : Tx),
          devGrantAccess (fun u => u + 100) st1 o dId tId t b = .ok (st2, res) →
          st1.permissions.contains (docId, addr) = true →
          st2.permissions.contains (docId, addr) = true
            ∧ st2.isConnected = st1.isConnected)
      ∧ (∀ (st1 st2 : DevChainState) (docId addr o dId t b : Nat)
          (tIds : List Nat) (res : BatchTx),
          devBatchGrantAccess (fun u => u + 100) st1 o dId tIds t b
              = .ok (st2, res) →
          st1.permissions.contains (docId, addr) = true →
          st2.permissions.contains (docId, addr) = true
            ∧ st2.isConnected = st1.isConnected)
      ∧ (∀ (st1 st2 : DevChainState) (docId addr o dId tId t b : Nat)
          (res : Tx),
          devRevokeAccess (fun u => u + 100) st1 o dId tId t b = .ok (st2, res) →
          ¬((docId, addr) = (dId, (fun u => u + 100) tId)) →
          st1.permissions.contains (docId, addr) = true →
          st2.permissions.contains (docId, addr) = true
            ∧ st2.isConnected = st1.isConnected)
      ∧ (∀ (st1 : DevChainState) (u dId : Nat),
          st1.isConnected = true →
          st1.permissions.contains (dId, (fun u => u + 100) u) = true →
          devHasAccess (fun u => u + 100) st1 u dId = .ok true)) :=
  ⟨rfl,
    devChain_owner_hasAccess (fun u => u + 100) ⟨true, [], []⟩ 1 5 6 7 8 9 rfl⟩
